import Mathlib

/-!
Verification of `gen.go`, the GraphQL schema code generator vendored at
`perfdash/Godeps/_workspace/src/github.com/shurcooL/githubql/gen.go`.

Go strings are modelled as lists of characters (`Str`); the inputs of the
generator are ASCII, where the Go byte-wise operations and character-wise
operations coincide.  Go functions that can panic are modelled as
`Except Str`-valued functions whose `.error` case is the panic.
-/

namespace GithubqlGen

/-- A Go string, modelled as a list of characters. -/
abbrev Str := List Char

/-- The built-in Go string comparison `a < b`: byte-wise lexicographic order,
modelled character-wise. -/
def strLt : Str → Str → Bool
  | [], [] => false
  | [], _ :: _ => true
  | _ :: _, [] => false
  | a :: as, b :: bs => a < b || (a == b && strLt as bs)

/-- Go `strings.HasPrefix s p`. -/
def goStartsWith (s p : Str) : Bool := p.isPrefixOf s

/-- Go `strings.HasSuffix s p`. -/
def goEndsWith (s p : Str) : Bool := p.isSuffixOf s

/-- A GraphQL type-reference node as it appears in the introspection JSON:
a mapping with a `kind` string, an optional `name` (null for wrapper kinds)
and an optional `ofType` child (present only for wrapper kinds).  Missing
fields decode to Go `nil`. -/
inductive TypeNode : Type where
  | mk (kind : Str) (name : Option Str) (ofType : Option TypeNode)

/-- The `kind` field of a type node. -/
def TypeNode.kind : TypeNode → Str
  | .mk k _ _ => k

/-- The `name` field of a type node. -/
def TypeNode.name : TypeNode → Option Str
  | .mk _ n _ => n

/-- The `ofType` field of a type node. -/
def TypeNode.ofType : TypeNode → Option TypeNode
  | .mk _ _ t => t

/-- The panic of a failed Go type assertion on a `nil` interface value. -/
def nilAssertErr : Str := "interface conversion: interface is nil".toList

/-- Body of the `NON_NULL` case of `typeString`, applied to the recursive
result on the `ofType` child: check for the leading nullability marker and
strip it, or hit the explicit consistency-violation panic. -/
def stripStar (r : Except Str Str) : Except Str Str :=
  match r with
  | .error e => .error e
  | .ok s =>
    if goStartsWith s ['*'] then
      .ok (s.drop 1)
    else
      .error ("panic: nullable type does not begin with star: ".toList ++ s)

/-- Body of the `LIST` case of `typeString`, applied to the recursive result
on the `ofType` child: `"*[]" + s`. -/
def wrapList (r : Except Str Str) : Except Str Str :=
  match r with
  | .error e => .error e
  | .ok s => .ok ('*' :: '[' :: ']' :: s)

/-- Function `typeString` from `gen.go` (the template function named
`type`): resolves a type-reference node to a Go type expression.  The
`.error` case models a Go panic: either a failed type assertion on a `nil`
field (`ofType` or `name`), or the explicit consistency-violation panic when
the inner resolved string lacks the leading nullability marker. -/
def typeString : TypeNode → Except Str Str
  | .mk k n oft =>
    if k = "NON_NULL".toList then
      match oft with
      | none => .error nilAssertErr
      | some inner => stripStar (typeString inner)
    else if k = "LIST".toList then
      match oft with
      | none => .error nilAssertErr
      | some inner => wrapList (typeString inner)
    else
      match n with
      | none => .error nilAssertErr
      | some nm => .ok ('*' :: nm)

/-- Unfolding equation for `typeString` on an explicit node. -/
theorem typeString_mk (k : Str) (n : Option Str) (oft : Option TypeNode) :
    typeString (.mk k n oft) =
      if k = "NON_NULL".toList then
        match oft with
        | none => .error nilAssertErr
        | some inner => stripStar (typeString inner)
      else if k = "LIST".toList then
        match oft with
        | none => .error nilAssertErr
        | some inner => wrapList (typeString inner)
      else
        match n with
        | none => .error nilAssertErr
        | some nm => .ok ('*' :: nm) := by
  cases n <;> cases oft <;> rfl

/-- A concrete scalar type-reference node, used to instantiate theorems. -/
def scalarIntNode : TypeNode := .mk "SCALAR".toList (some "Int".toList) none

/-- Every successful resolution of a node whose kind is not `NON_NULL`
begins with the nullability marker character. -/
theorem typeString_ok_marker (X : TypeNode) (s : Str)
    (hk : X.kind ≠ "NON_NULL".toList) (h : typeString X = .ok s) :
    ∃ t, s = '*' :: t := by
  cases X with
  | mk k n oft =>
    simp only [TypeNode.kind] at hk
    rw [typeString_mk, if_neg hk] at h
    split at h
    · split at h
      · exact absurd h (by simp)
      · rename_i inner
        cases hr : typeString inner with
        | error e => rw [hr] at h; simp [wrapList] at h
        | ok s0 =>
          rw [hr] at h
          simp only [wrapList, Except.ok.injEq] at h
          exact ⟨_, h.symm⟩
    · split at h
      · exact absurd h (by simp)
      · simp only [Except.ok.injEq] at h
        exact ⟨_, h.symm⟩

/-- C1: for every type-reference node `X` whose kind is not `NON_NULL`
(i.e. a scalar, `LIST`, or named type), the resolved string `type(X)` begins
with the nullability marker `*`, and `type(NON_NULL(X))` is `type(X)` with
exactly that first character removed; in particular the `NON_NULL` branch
returns normally, so its panic (the unrecoverable consistency-violation
branch) is never taken. -/
theorem typeString_nonNull_strips_marker (X : TypeNode) (s : Str)
    (hk : X.kind ≠ "NON_NULL".toList) (h : typeString X = .ok s) :
    goStartsWith s ['*'] = true ∧
      typeString (.mk "NON_NULL".toList none (some X)) = .ok (s.drop 1) := by
  obtain ⟨t, rfl⟩ := typeString_ok_marker X s hk h
  refine ⟨by simp [goStartsWith, List.isPrefixOf], ?_⟩
  rw [typeString_mk, if_pos rfl]
  show stripStar (typeString X) = _
  rw [h]
  simp [stripStar, goStartsWith, List.isPrefixOf]

/-- Witness for C1 at the concrete scalar node `Int`. -/
theorem typeString_nonNull_strips_marker_witness :
    goStartsWith ('*' :: "Int".toList) ['*'] = true ∧
      typeString (.mk "NON_NULL".toList none (some scalarIntNode)) =
        .ok (('*' :: "Int".toList).drop 1) :=
  typeString_nonNull_strips_marker scalarIntNode _ (by decide) rfl

/-- C2: for every type-reference node `X` that resolves successfully,
`type(LIST(X))` is the nullability marker `*`, then the sequence-type marker
`[]`, then `type(X)`. -/
theorem typeString_list_wraps (X : TypeNode) (s : Str) (h : typeString X = .ok s) :
    typeString (.mk "LIST".toList none (some X)) = .ok ('*' :: '[' :: ']' :: s) := by
  rw [typeString_mk, if_neg (by decide), if_pos rfl]
  show wrapList (typeString X) = _
  rw [h]
  simp [wrapList]

/-- Witness for C2 at the concrete scalar node `Int`. -/
theorem typeString_list_wraps_witness :
    typeString scalarIntNode = .ok ('*' :: "Int".toList) ∧
      typeString (.mk "LIST".toList none (some scalarIntNode)) =
        .ok ('*' :: '[' :: ']' :: '*' :: "Int".toList) :=
  ⟨rfl, typeString_list_wraps scalarIntNode _ rfl⟩

/-- An enum value descriptor from the introspection document. -/
structure EnumValue where
  name : Str
  description : Str

/-- An input field descriptor from the introspection document: a name, a
description, and a nested type reference. -/
structure InputField where
  name : Str
  description : Str
  type : TypeNode

/-- A top-level type descriptor, an entry of `data.__schema.types`. -/
structure SchemaType where
  kind : Str
  name : Str
  description : Str
  enumValues : List EnumValue
  inputFields : List InputField

/-- Template function `internal` from `gen.go`:
`strings.HasPrefix(s, "__")`. -/
def internal (s : Str) : Bool := goStartsWith s ['_', '_']

/-- The per-type condition of the `enum.go` template range:
`and (eq .kind "ENUM") (not (internal .name))`. -/
def enumTemplateFilter (t : SchemaType) : Bool :=
  t.kind == "ENUM".toList && !(internal t.name)

/-- The per-type condition of the `input.go` template range:
`eq .kind "INPUT_OBJECT"` (note: no `internal` test appears here). -/
def inputObjectTemplateFilter (t : SchemaType) : Bool :=
  t.kind == "INPUT_OBJECT".toList

/-- Contract of `sortByName` from `gen.go`.  The function calls `sort.Slice`
(not `sort.SliceStable`) with the comparison `types[i].name < types[j].name`
and returns the slice.  The Go library guarantees only that the result is a
permutation of the input that is ordered by the comparison; it documents
that the sort is not guaranteed to be stable.  This relation holds between
the input and every output the library contract allows. -/
def sortByNameResult (inp out : List SchemaType) : Prop :=
  List.Perm inp out ∧ out.Pairwise (fun a b => strLt b.name a.name = false)

/-- The sequence of top-level types the `enum.go` template renders a
declaration for: the range `.data.__schema.types | sortByName` filtered by
`enumTemplateFilter`, for some sort outcome allowed by the contract. -/
def enumDeclsResult (types decls : List SchemaType) : Prop :=
  ∃ sorted, sortByNameResult types sorted ∧ decls = sorted.filter enumTemplateFilter

/-- The sequence of top-level types the `input.go` template renders a
declaration for: the range `.data.__schema.types | sortByName` filtered by
`inputObjectTemplateFilter`, for some sort outcome allowed by the
contract. -/
def inputObjectDeclsResult (types decls : List SchemaType) : Prop :=
  ∃ sorted, sortByNameResult types sorted ∧ decls = sorted.filter inputObjectTemplateFilter

/-- A hypothetical `INPUT_OBJECT` type carrying the introspection-reserved
double-underscore name. -/
def evilInputType : SchemaType :=
  ⟨"INPUT_OBJECT".toList, "__EvilInput".toList, [], [], []⟩

/-- Counterexample to C3: the `input.go` template filters only on the kind
and does not exclude reserved double-underscore names, so an `INPUT_OBJECT`
type named `__EvilInput` does produce a declaration in the input-object
file. -/
theorem input_template_admits_internal_name :
    inputObjectDeclsResult [evilInputType] [evilInputType] ∧
      evilInputType ∈ [evilInputType] ∧ internal evilInputType.name = true := by
  refine ⟨⟨[evilInputType], ⟨List.Perm.refl _, List.pairwise_singleton _ _⟩, ?_⟩,
    List.mem_singleton.mpr rfl, by decide⟩
  show _ = List.filter _ _
  rw [List.filter_cons_of_pos (by decide), List.filter_nil]

/-- C3 as amended: every type the `enum.go` template renders has kind `ENUM`
and a name that does not start with the reserved `__`; every type the
`input.go` template renders has kind `INPUT_OBJECT`, but reserved names are
not excluded there. -/
theorem template_filters_amended (types decls : List SchemaType) (t : SchemaType) :
    (enumDeclsResult types decls → t ∈ decls →
      t.kind = "ENUM".toList ∧ internal t.name = false) ∧
    (inputObjectDeclsResult types decls → t ∈ decls →
      t.kind = "INPUT_OBJECT".toList) := by
  constructor
  · rintro ⟨sorted, _, rfl⟩ ht
    have := (List.mem_filter.mp ht).2
    simpa [enumTemplateFilter] using this
  · rintro ⟨sorted, _, rfl⟩ ht
    have := (List.mem_filter.mp ht).2
    simpa [inputObjectTemplateFilter] using this

/-- A well-formed enum type used to instantiate theorems. -/
def issueStateType : SchemaType :=
  ⟨"ENUM".toList, "IssueState".toList, "The possible states of an issue.".toList,
    [⟨"OPEN".toList, "An open issue.".toList⟩], []⟩

/-- Two different lists related by `strLt` in neither direction are equal
(the comparison is connected). -/
theorem strLt_connex (a : Str) : ∀ b : Str,
    strLt a b = false → strLt b a = false → a = b := by
  induction a with
  | nil =>
    intro b h1 _
    cases b with
    | nil => rfl
    | cons d ds => simp [strLt] at h1
  | cons c cs ih =>
    intro b h1 h2
    cases b with
    | nil => simp [strLt] at h2
    | cons d ds =>
      simp only [strLt, Bool.or_eq_false_iff, Bool.and_eq_false_iff,
        decide_eq_false_iff_not, beq_eq_false_iff_ne, ne_eq] at h1 h2
      have hcd : c = d := le_antisymm (not_lt.mp h2.1) (not_lt.mp h1.1)
      subst hcd
      have hcs : strLt cs ds = false := by
        rcases h1.2 with h | h
        · exact absurd rfl h
        · exact h
      have hds : strLt ds cs = false := by
        rcases h2.2 with h | h
        · exact absurd rfl h
        · exact h
      rw [ih ds hcs hds]

/-- Two distinct type descriptors sharing the same name. -/
def dupNameEnum : SchemaType := ⟨"ENUM".toList, "Dup".toList, [], [], []⟩

/-- A second descriptor with the same name as `dupNameEnum` but a different
kind. -/
def dupNameScalar : SchemaType := ⟨"SCALAR".toList, "Dup".toList, [], [], []⟩

/-- Counterexample to C5: `sortByName` uses `sort.Slice`, whose contract
does not guarantee stability.  On an input holding two distinct descriptors
with equal names, the contract admits the output that swaps them, so
elements with equal names need not keep their original relative order. -/
theorem sortByName_not_stable :
    sortByNameResult [dupNameEnum, dupNameScalar] [dupNameScalar, dupNameEnum] ∧
      dupNameEnum.name = dupNameScalar.name ∧
      [dupNameScalar, dupNameEnum] ≠ [dupNameEnum, dupNameScalar] := by
  refine ⟨⟨List.Perm.swap _ _ _, by decide⟩, rfl, ?_⟩
  · intro h
    injection h with h1 _
    exact absurd (congrArg SchemaType.kind h1) (by decide)

/-- C5 as amended: any output `sortByName` is allowed to produce is a
permutation of its input that is non-decreasing by name, so the top-level
declarations of each rendered file are non-decreasing by name; when the
schema type names are pairwise distinct the rendered declarations are
strictly ascending.  Stability is not part of the contract. -/
theorem sortByName_sorts_amended (types out : List SchemaType)
    (h : sortByNameResult types out) :
    (out.filter enumTemplateFilter).Pairwise
        (fun a b => strLt b.name a.name = false) ∧
    (out.filter inputObjectTemplateFilter).Pairwise
        (fun a b => strLt b.name a.name = false) ∧
    (types.Pairwise (fun a b => a.name ≠ b.name) →
      (out.filter enumTemplateFilter).Pairwise
          (fun a b => strLt a.name b.name = true) ∧
      (out.filter inputObjectTemplateFilter).Pairwise
          (fun a b => strLt a.name b.name = true)) := by
  obtain ⟨hperm, hsorted⟩ := h
  refine ⟨hsorted.sublist (List.filter_sublist _),
    hsorted.sublist (List.filter_sublist _), ?_⟩
  intro hdist
  have hdist' : out.Pairwise (fun a b => a.name ≠ b.name) :=
    hperm.pairwise hdist (fun hab => hab.symm)
  have hstrict : out.Pairwise (fun a b => strLt a.name b.name = true) := by
    have := hsorted.and hdist'
    refine this.imp ?_
    rintro a b ⟨hle, hne⟩
    cases hlt : strLt a.name b.name with
    | true => rfl
    | false => exact absurd (strLt_connex _ _ hlt hle) hne
  exact ⟨hstrict.sublist (List.filter_sublist _),
    hstrict.sublist (List.filter_sublist _)⟩

/-- Witness for the amended C5 at a concrete two-type schema. -/
theorem sortByName_sorts_amended_witness :
    (([dupNameEnum, issueStateType].filter enumTemplateFilter).Pairwise
        (fun a b => strLt b.name a.name = false)) ∧
      (([dupNameEnum, issueStateType].filter inputObjectTemplateFilter).Pairwise
        (fun a b => strLt b.name a.name = false)) ∧
      ([issueStateType, dupNameEnum].Pairwise (fun a b => a.name ≠ b.name) →
        (([dupNameEnum, issueStateType].filter enumTemplateFilter).Pairwise
          (fun a b => strLt a.name b.name = true)) ∧
        (([dupNameEnum, issueStateType].filter inputObjectTemplateFilter).Pairwise
          (fun a b => strLt a.name b.name = true))) :=
  by
  have hc : sortByNameResult [issueStateType, dupNameEnum] [dupNameEnum, issueStateType] :=
    ⟨List.Perm.swap _ _ _, by decide⟩
  exact sortByName_sorts_amended [issueStateType, dupNameEnum] [dupNameEnum, issueStateType] hc

/-- The per-field condition of the first `inputFields` range in the
`inputObject` template fragment: `eq .type.kind "NON_NULL"`. -/
def isRequiredField (f : InputField) : Bool :=
  f.type.kind == "NON_NULL".toList

/-- The field sequence emitted by the `inputObject` template fragment: it
ranges over `inputFields` twice, first emitting the fields whose type
reference has kind `NON_NULL` (tagged `Required.`), then the fields whose
type reference does not (tagged `Optional.`). -/
def renderedInputFields (fields : List InputField) : List InputField :=
  fields.filter isRequiredField ++ fields.filter (fun f => !(isRequiredField f))

/-- C4: in the rendered struct, every `NON_NULL` field appears strictly
before every field that is not `NON_NULL`; each of the two groups keeps the
relative order of the `inputFields` sequence of the schema; and the rendered
sequence is a permutation of that sequence (no field is lost or
duplicated). -/
theorem inputFields_required_first (fields : List InputField) :
    (renderedInputFields fields).Pairwise
        (fun a b => isRequiredField b = true → isRequiredField a = true) ∧
      (renderedInputFields fields).filter isRequiredField =
        fields.filter isRequiredField ∧
      (renderedInputFields fields).filter (fun f => !(isRequiredField f)) =
        fields.filter (fun f => !(isRequiredField f)) ∧
      List.Perm (renderedInputFields fields) fields := by
  refine ⟨?_, ?_, ?_, List.filter_append_perm _ _⟩
  · rw [renderedInputFields, List.pairwise_append]
    refine ⟨?_, ?_, ?_⟩
    · refine List.pairwise_of_forall_mem_list ?_
      intro a ha b hb
      intro _
      exact (List.mem_filter.mp ha).2
    · refine List.pairwise_of_forall_mem_list ?_
      intro a ha b hb hreq
      have := (List.mem_filter.mp hb).2
      rw [hreq] at this
      simp at this
    · intro a ha b hb _
      exact (List.mem_filter.mp ha).2
  · rw [renderedInputFields, List.filter_append, List.filter_filter,
      List.filter_filter]
    simp [Bool.and_self, Bool.and_not_self]
  · rw [renderedInputFields, List.filter_append, List.filter_filter,
      List.filter_filter]
    simp [Bool.and_self, Bool.not_and_self]

/-- Witness for the amended C3 at a concrete one-type schema. -/
theorem template_filters_amended_witness :
    issueStateType.kind = "ENUM".toList ∧ internal issueStateType.name = false :=
  (template_filters_amended [issueStateType] [issueStateType] issueStateType).1
    ⟨[issueStateType], ⟨List.Perm.refl _, List.pairwise_singleton _ _⟩,
      by show _ = List.filter _ _
         rw [List.filter_cons_of_pos (by decide), List.filter_nil]⟩
    (List.mem_singleton.mpr rfl)

/-- Go `strings.ToLower`, character-wise.  The generator descriptions are
ASCII, where byte-wise and character-wise lowering agree. -/
def goToLower (s : Str) : Str := s.map Char.toLower

/-- The first statement of `endSentence` on a non-empty string:
`strings.ToLower(s[0:1]) + s[1:]`. -/
def lowerFirst : Str → Str
  | [] => []
  | c :: rest => goToLower [c] ++ rest

/-- The `switch` statement of `endSentence`, applied to the lower-cased
string: prepend `"is an "` when the text starts with `"autogenerated "`,
leave it alone when it starts with `"specifies "`, and prepend
`"represents "` otherwise (the `default` clause runs only when neither
labelled case matches, following Go `switch` semantics). -/
def sentenceCore (t : Str) : Str :=
  if goStartsWith t "autogenerated ".toList then "is an ".toList ++ t
  else if goStartsWith t "specifies ".toList then t
  else "represents ".toList ++ t

/-- The final statement of `endSentence` (and of `fullSentence`): append a
period unless the string already ends with one. -/
def ensureDot (u : Str) : Str :=
  if goEndsWith u ['.'] then u else u ++ ['.']

/-- Function `endSentence` from `gen.go`.  The `none` case models the Go
panic: on an empty string the slice expression `s[0:1]` in the first
statement is out of range. -/
def endSentence (s : Str) : Option Str :=
  match s with
  | [] => none
  | c :: rest => some (ensureDot (sentenceCore (lowerFirst (c :: rest))))

/-- A string ends in exactly one period when it ends with `.` but not with
`..`. -/
def endsWithExactlyOnePeriod (s : Str) : Bool :=
  goEndsWith s ['.'] && !(goEndsWith s ['.', '.'])

/-- Bool-to-Prop bridge for `goStartsWith`. -/
theorem goStartsWith_iff (s p : Str) : goStartsWith s p = true ↔ p <+: s := by
  simp [goStartsWith]

/-- Bool-to-Prop bridge for `goEndsWith`. -/
theorem goEndsWith_iff (s p : Str) : goEndsWith s p = true ↔ p <:+ s := by
  simp [goEndsWith]

/-- Prepending the same text on both sides preserves a prefix. -/
theorem goStartsWith_append_both (e t p : Str) (h : goStartsWith t p = true) :
    goStartsWith (e ++ t) (e ++ p) = true := by
  rw [goStartsWith_iff] at h ⊢
  obtain ⟨w, rfl⟩ := h
  rw [← List.append_assoc]
  exact List.prefix_append _ _

/-- Extending a list on the right preserves a prefix. -/
theorem goStartsWith_append_right (s p e : Str) (h : goStartsWith s p = true) :
    goStartsWith (s ++ e) p = true := by
  rw [goStartsWith_iff] at h ⊢
  exact h.trans (List.prefix_append _ _)

/-- A one-character suffix of an append with a non-empty right part only
looks at the right part. -/
theorem singleton_suffix_append (pre t : Str) (a : Char) (h : t ≠ []) :
    ([a] <:+ pre ++ t) ↔ ([a] <:+ t) := by
  rw [← List.reverse_prefix, ← List.reverse_prefix, List.reverse_append]
  cases hrt : t.reverse with
  | nil => exact absurd (List.reverse_eq_nil_iff.mp hrt) h
  | cons b bs => simp [List.cons_prefix_cons]

/-- Bool form of `singleton_suffix_append`. -/
theorem goEndsWith_append_single (pre t : Str) (a : Char) (h : t ≠ []) :
    goEndsWith (pre ++ t) [a] = goEndsWith t [a] := by
  rw [Bool.eq_iff_iff, goEndsWith_iff, goEndsWith_iff]
  exact singleton_suffix_append pre t a h

/-- Appending one character `a` to a list produces a two-character suffix
`[a, a]` exactly when the list already ended with `a`. -/
theorem two_suffix_snoc (u : Str) (a : Char) :
    ([a, a] <:+ u ++ [a]) ↔ ([a] <:+ u) := by
  rw [← List.reverse_prefix, ← List.reverse_prefix, List.reverse_append]
  simp [List.cons_prefix_cons]

/-- The `switch` of `endSentence` does not change whether the text ends
with a period (each branch at most prepends words to a non-empty text). -/
theorem sentenceCore_suffix (t : Str) (h : t ≠ []) :
    goEndsWith (sentenceCore t) ['.'] = goEndsWith t ['.'] := by
  unfold sentenceCore
  split_ifs
  · exact goEndsWith_append_single _ _ _ h
  · rfl
  · exact goEndsWith_append_single _ _ _ h

/-- Output of `ensureDot` always ends with a period. -/
theorem ensureDot_suffix (u : Str) : goEndsWith (ensureDot u) ['.'] = true := by
  unfold ensureDot
  split_ifs with hu
  · exact hu
  · rw [goEndsWith_iff]
    exact List.suffix_append _ _

/-- When its input does not end with a period, `ensureDot` appends exactly
one. -/
theorem ensureDot_exactlyOne (u : Str) (h : goEndsWith u ['.'] = false) :
    endsWithExactlyOnePeriod (ensureDot u) = true := by
  unfold ensureDot
  rw [if_neg (by simp [h])]
  unfold endsWithExactlyOnePeriod
  rw [Bool.and_eq_true]
  refine ⟨by rw [goEndsWith_iff]; exact List.suffix_append _ _, ?_⟩
  rw [Bool.not_eq_true', Bool.eq_iff_iff]
  simp only [goEndsWith_iff]
  rw [show (['.', '.'] : Str) = ['.'] ++ ['.'] from rfl] at *
  constructor
  · intro hcontra
    have := (two_suffix_snoc u '.').mp hcontra
    rw [← goEndsWith_iff, h] at this
    exact absurd this (by simp)
  · intro hcontra
    exact absurd hcontra (by simp)

/-- Function `ensureDot` preserves prefixes of its input. -/
theorem ensureDot_keeps (u p : Str) (h : goStartsWith u p = true) :
    goStartsWith (ensureDot u) p = true := by
  unfold ensureDot
  split_ifs
  · exact h
  · exact goStartsWith_append_right _ _ _ h

/-- In the `autogenerated` branch the core output starts with
`"is an autogenerated "`. -/
theorem sentenceCore_auto (t : Str)
    (h1 : goStartsWith t "autogenerated ".toList = true) :
    goStartsWith (sentenceCore t) "is an autogenerated ".toList = true := by
  unfold sentenceCore
  rw [if_pos h1]
  have := goStartsWith_append_both "is an ".toList t "autogenerated ".toList h1
  rwa [show "is an ".toList ++ "autogenerated ".toList =
    "is an autogenerated ".toList from rfl] at this

/-- In the `specifies` branch the core output starts with `"specifies "`. -/
theorem sentenceCore_spec (t : Str)
    (h1 : goStartsWith t "autogenerated ".toList = false)
    (h2 : goStartsWith t "specifies ".toList = true) :
    goStartsWith (sentenceCore t) "specifies ".toList = true := by
  unfold sentenceCore
  rw [if_neg (by rw [h1]; exact Bool.false_ne_true), if_pos h2]
  exact h2

/-- In the default branch the core output starts with `"represents "`. -/
theorem sentenceCore_rep (t : Str)
    (h1 : goStartsWith t "autogenerated ".toList = false)
    (h2 : goStartsWith t "specifies ".toList = false) :
    goStartsWith (sentenceCore t) "represents ".toList = true := by
  unfold sentenceCore
  rw [if_neg (by rw [h1]; exact Bool.false_ne_true),
    if_neg (by rw [h2]; exact Bool.false_ne_true)]
  rw [goStartsWith_iff]
  exact List.prefix_append _ _

/-- Counterexample to C6: `endSentence` appends a period only when the text
does not already end with one and never collapses existing periods, so on a
description ending in `..` the returned string ends with two periods, not
exactly one. -/
theorem endSentence_double_period :
    endSentence "hi..".toList = some "represents hi..".toList ∧
      endsWithExactlyOnePeriod "represents hi..".toList = false := by
  exact ⟨rfl, rfl⟩

/-- C6 as amended: for every non-empty description `s`, `endSentence`
lower-cases the first letter, prefixes the result with `represents ` unless
it already starts with `autogenerated ` (then prefixes `is an `) or
`specifies ` (left as-is), and the returned string ends with at least one
trailing period; exactly one period is appended when the lower-cased input
does not already end with one (an input already ending in periods is kept
as-is, so the result then need not end in exactly one). -/
theorem endSentence_amended (s : Str) (h : s ≠ []) :
    ∃ r, endSentence s = some r ∧
      goEndsWith r ['.'] = true ∧
      (goEndsWith (lowerFirst s) ['.'] = false →
        endsWithExactlyOnePeriod r = true) ∧
      (goStartsWith (lowerFirst s) "autogenerated ".toList = true →
        goStartsWith r "is an autogenerated ".toList = true) ∧
      (goStartsWith (lowerFirst s) "autogenerated ".toList = false →
        goStartsWith (lowerFirst s) "specifies ".toList = true →
        goStartsWith r "specifies ".toList = true) ∧
      (goStartsWith (lowerFirst s) "autogenerated ".toList = false →
        goStartsWith (lowerFirst s) "specifies ".toList = false →
        goStartsWith r "represents ".toList = true) := by
  cases s with
  | nil => exact absurd rfl h
  | cons c rest =>
    have hne : lowerFirst (c :: rest) ≠ [] := by simp [lowerFirst, goToLower]
    refine ⟨ensureDot (sentenceCore (lowerFirst (c :: rest))), rfl,
      ensureDot_suffix _, ?_, ?_, ?_, ?_⟩
    · intro ht
      exact ensureDot_exactlyOne _ (by rw [sentenceCore_suffix _ hne, ht])
    · intro h1
      exact ensureDot_keeps _ _ (sentenceCore_auto _ h1)
    · intro h1 h2
      exact ensureDot_keeps _ _ (sentenceCore_spec _ h1 h2)
    · intro h1 h2
      exact ensureDot_keeps _ _ (sentenceCore_rep _ h1 h2)

/-- Witness for the amended C6 at the concrete description `hi`. -/
theorem endSentence_amended_witness :
    ∃ r, endSentence "hi".toList = some r ∧
      goEndsWith r ['.'] = true ∧
      (goEndsWith (lowerFirst "hi".toList) ['.'] = false →
        endsWithExactlyOnePeriod r = true) ∧
      (goStartsWith (lowerFirst "hi".toList) "autogenerated ".toList = true →
        goStartsWith r "is an autogenerated ".toList = true) ∧
      (goStartsWith (lowerFirst "hi".toList) "autogenerated ".toList = false →
        goStartsWith (lowerFirst "hi".toList) "specifies ".toList = true →
        goStartsWith r "specifies ".toList = true) ∧
      (goStartsWith (lowerFirst "hi".toList) "autogenerated ".toList = false →
        goStartsWith (lowerFirst "hi".toList) "specifies ".toList = false →
        goStartsWith r "represents ".toList = true) :=
  endSentence_amended "hi".toList (by decide)

/-- C10: `endSentence` is undefined on the empty string (the Go code panics
slicing `s[0:1]`), and it is defined on every non-empty string. -/
theorem endSentence_empty_undefined :
    endSentence [] = none ∧ ∀ s : Str, s ≠ [] → (endSentence s).isSome = true := by
  refine ⟨rfl, fun s hs => ?_⟩
  cases s with
  | nil => exact absurd rfl hs
  | cons c rest => rfl

/-- Witness for C10 at the concrete one-character description `a`. -/
theorem endSentence_empty_undefined_witness :
    endSentence [] = none ∧ (endSentence ['a']).isSome = true :=
  ⟨endSentence_empty_undefined.1, endSentence_empty_undefined.2 ['a'] (by decide)⟩

/-- The two output filenames, exactly the keys of the `templates` map
literal in `gen.go`, listed in source order. -/
def templateFilenames : List Str := ["enum.go".toList, "input.go".toList]

/-- The outside world a run interacts with, modelled as oracles: the
credential variable, the HTTP transport, the JSON decoder, the template
engine, the `gofmt` formatter and the filesystem.  Only the schema type
list matters to the templates, so the decoded document is abstracted to
it. -/
structure GenEnv where
  /-- Result of `os.LookupEnv("GITHUB_TOKEN")`. -/
  token : Option Str
  /-- Outcome of `http.DefaultClient.Do`: a transport error, or the
  response body. -/
  transport : Except Str Str
  /-- Outcome of `json.NewDecoder(resp.Body).Decode(&schema)` on a body. -/
  decode : Str → Except Str (List SchemaType)
  /-- Outcome of `t.Execute(&buf, schema)` for a given filename. -/
  render : Str → List SchemaType → Except Str Str
  /-- Outcome of `format.Source` on a rendered buffer. -/
  gofmt : Str → Except Str Str
  /-- Whether `ioutil.WriteFile(filename, out, 0644)` succeeds. -/
  writeOk : Str → Str → Bool

/-- Function `loadSchema` from `gen.go`: one authenticated GET, then a JSON
decode of the response body; every error propagates as-is. -/
def loadSchema (env : GenEnv) : Except Str (List SchemaType) :=
  match env.transport with
  | .error e => .error e
  | .ok body => env.decode body

/-- The degraded payload `run` writes when `format.Source` fails:
`"// gofmt error: " + err.Error() + "\n\n" + buf.String()`. -/
def gofmtErrorPayload (e buf : Str) : Str :=
  "// gofmt error: ".toList ++ e ++ ('\n' :: '\n' :: buf)

/-- The bytes `run` writes for one successfully rendered buffer: the
formatted output, or on formatting failure the degraded payload. -/
def templateOutput (env : GenEnv) (buf : Str) : Str :=
  match env.gofmt buf with
  | .ok formatted => formatted
  | .error e => gofmtErrorPayload e buf

/-- The template loop of `run`, processing filenames in the given map
iteration order: render, format (with local recovery), write.  Returns the
process exit status (`0` after `return nil`, `1` for the `log.Fatalln`
path) and the files successfully written, in processing order.  A render or
write error aborts the loop at once; the partial effects of a failed
`WriteFile` are outside the model. -/
def processTemplates (env : GenEnv) (schema : List SchemaType) :
    List Str → Nat × List (Str × Str)
  | [] => (0, [])
  | fname :: rest =>
    match env.render fname schema with
    | .error _ => (1, [])
    | .ok buf =>
      let out := templateOutput env buf
      if env.writeOk fname out then
        let r := processTemplates env schema rest
        (r.1, (fname, out) :: r.2)
      else
        (1, [])

/-- Function `run` from `gen.go`, relative to an environment and to the map
iteration order Go chose for `range templates` in this run. -/
def runGen (env : GenEnv) (order : List Str) : Nat × List (Str × Str) :=
  match env.token with
  | none => (1, [])
  | some _ =>
    match loadSchema env with
    | .error _ => (1, [])
    | .ok schema => processTemplates env schema order

/-- The iteration orders the Go `range` may use over the `templates` map: each
key exactly once, in an unspecified order. -/
def validOrder (order : List Str) : Prop :=
  List.Perm order templateFilenames

/-- The content written for a filename in a fully successful run. -/
def outputFor (env : GenEnv) (schema : List SchemaType) (f : Str) : Str :=
  match env.render f schema with
  | .ok buf => templateOutput env buf
  | .error _ => []

/-- When the token and the schema load succeed, `run` is the template
loop. -/
theorem runGen_ok (env : GenEnv) (tok : Str) (schema : List SchemaType)
    (order : List Str) (htok : env.token = some tok)
    (hload : loadSchema env = .ok schema) :
    runGen env order = processTemplates env schema order := by
  simp [runGen, htok, hload]

/-- When every render and every write succeeds, the loop exits with status
zero and writes every file in order. -/
theorem processTemplates_allOk (env : GenEnv) (schema : List SchemaType) :
    ∀ order : List Str,
    (∀ f ∈ order, ∃ buf, env.render f schema = .ok buf) →
    (∀ f ∈ order, ∀ buf, env.render f schema = .ok buf →
      env.writeOk f (templateOutput env buf) = true) →
    processTemplates env schema order =
      (0, order.map (fun f => (f, outputFor env schema f))) := by
  intro order
  induction order with
  | nil => intro _ _; rfl
  | cons fname rest ih =>
    intro hrender hwrite
    obtain ⟨buf, hbuf⟩ := hrender fname (List.mem_cons_self _ _)
    have hw := hwrite fname (List.mem_cons_self _ _) buf hbuf
    have hrest := ih (fun f hf => hrender f (List.mem_cons_of_mem _ hf))
      (fun f hf => hwrite f (List.mem_cons_of_mem _ hf))
    simp only [processTemplates, hbuf, hw, if_pos, hrest, List.map_cons]
    simp [outputFor, hbuf]

/-- C7: when the formatter rejects a rendered buffer the run is not
aborted: with the schema loaded and every render and write succeeding, the
run exits with status zero, every template in the iteration order gets its
file written, and a template whose buffer the formatter rejected gets the
degraded payload (the comment line carrying the formatting error message
followed by the original unformatted buffer). -/
theorem run_gofmt_failure_recovers (env : GenEnv) (tok : Str)
    (schema : List SchemaType) (order : List Str)
    (htok : env.token = some tok) (hload : loadSchema env = .ok schema)
    (hrender : ∀ f ∈ order, ∃ buf, env.render f schema = .ok buf)
    (hwrite : ∀ f ∈ order, ∀ buf, env.render f schema = .ok buf →
      env.writeOk f (templateOutput env buf) = true) :
    (runGen env order).1 = 0 ∧
      (runGen env order).2.map Prod.fst = order ∧
      ∀ f buf e, f ∈ order → env.render f schema = .ok buf →
        env.gofmt buf = .error e →
        (f, gofmtErrorPayload e buf) ∈ (runGen env order).2 := by
  rw [runGen_ok env tok schema order htok hload,
    processTemplates_allOk env schema order hrender hwrite]
  refine ⟨rfl, by simp [Function.comp_def], ?_⟩
  intro f buf e hf hbuf hfmt
  have hout : outputFor env schema f = gofmtErrorPayload e buf := by
    simp [outputFor, hbuf, templateOutput, hfmt]
  rw [← hout]
  exact List.mem_map_of_mem _ hf

/-- A concrete environment whose formatter rejects every buffer while
everything else succeeds. -/
def gofmtFailEnv : GenEnv where
  token := some "t".toList
  transport := .ok "schemajson".toList
  decode := fun _ => .ok []
  render := fun _ _ => .ok "package githubql".toList
  gofmt := fun _ => .error "expected declaration".toList
  writeOk := fun _ _ => true

/-- Witness for C7 in the concrete always-reject-formatter environment. -/
theorem run_gofmt_failure_recovers_witness :
    (runGen gofmtFailEnv templateFilenames).1 = 0 ∧
      (runGen gofmtFailEnv templateFilenames).2.map Prod.fst =
        templateFilenames ∧
      ∀ f buf e, f ∈ templateFilenames →
        gofmtFailEnv.render f [] = .ok buf →
        gofmtFailEnv.gofmt buf = .error e →
        (f, gofmtErrorPayload e buf) ∈ (runGen gofmtFailEnv templateFilenames).2 :=
  run_gofmt_failure_recovers gofmtFailEnv "t".toList [] templateFilenames rfl rfl
    (fun _ _ => ⟨_, rfl⟩) (fun _ _ _ _ => rfl)

/-- C8: a missing credential variable, a transport failure, or a JSON
decode failure each terminates the run before any template is processed:
the exit status is non-zero and no output file is written.  Moreover every
later non-formatting error is terminal for the rest of the run: a render
error or a write error aborts the template loop at the failing template,
recording no write from that stage or any subsequent stage. -/
theorem run_non_format_errors_terminal :
    (∀ env : GenEnv, ∀ order : List Str,
      (env.token = none ∨ (∃ e, env.transport = .error e) ∨
        ∃ body e, env.transport = .ok body ∧ env.decode body = .error e) →
      runGen env order = (1, [])) ∧
    (∀ env : GenEnv, ∀ schema : List SchemaType, ∀ fname : Str,
      ∀ rest : List Str, ∀ e : Str,
      env.render fname schema = .error e →
      processTemplates env schema (fname :: rest) = (1, [])) ∧
    (∀ env : GenEnv, ∀ schema : List SchemaType, ∀ fname : Str,
      ∀ rest : List Str, ∀ buf : Str,
      env.render fname schema = .ok buf →
      env.writeOk fname (templateOutput env buf) = false →
      processTemplates env schema (fname :: rest) = (1, [])) := by
  refine ⟨?_, ?_, ?_⟩
  · intro env order h
    rcases h with h | ⟨e, he⟩ | ⟨body, e, hb, hd⟩
    · simp [runGen, h]
    · cases ht : env.token with
      | none => simp [runGen, ht]
      | some tok => simp [runGen, ht, loadSchema, he]
    · cases ht : env.token with
      | none => simp [runGen, ht]
      | some tok => simp [runGen, ht, loadSchema, hb, hd]
  · intro env schema fname rest e he
    simp [processTemplates, he]
  · intro env schema fname rest buf hb hw
    simp [processTemplates, hb, hw]

/-- A concrete environment with no `GITHUB_TOKEN` set, whose render also
fails. -/
def noTokenEnv : GenEnv where
  token := none
  transport := .error []
  decode := fun _ => .error []
  render := fun _ _ => .error []
  gofmt := fun b => .ok b
  writeOk := fun _ _ => false

/-- A concrete environment where rendering succeeds but every file write
fails. -/
def failWriteEnv : GenEnv where
  token := some "t".toList
  transport := .ok "schemajson".toList
  decode := fun _ => .ok []
  render := fun f _ => .ok f
  gofmt := fun b => .ok b
  writeOk := fun _ _ => false

/-- Witness for C8: the missing-credential run writes nothing, a failing
render aborts the loop, and a failing write aborts the loop. -/
theorem run_non_format_errors_terminal_witness :
    runGen noTokenEnv templateFilenames = (1, []) ∧
      processTemplates noTokenEnv [] ["enum.go".toList] = (1, []) ∧
      processTemplates failWriteEnv [] ["enum.go".toList] = (1, []) :=
  ⟨run_non_format_errors_terminal.1 noTokenEnv templateFilenames (Or.inl rfl),
    run_non_format_errors_terminal.2.1 noTokenEnv [] "enum.go".toList [] [] rfl,
    run_non_format_errors_terminal.2.2 failWriteEnv [] "enum.go".toList []
      "enum.go".toList rfl rfl⟩

/-- Counterexample to C9: the Go `range` over the `templates` map may visit
the two keys in either order (map iteration order is unspecified and
randomized), so the processing order is not fixed: both orders are valid
iteration orders, and they differ. -/
theorem map_iteration_order_not_fixed :
    validOrder ["enum.go".toList, "input.go".toList] ∧
      validOrder ["input.go".toList, "enum.go".toList] ∧
      (["enum.go".toList, "input.go".toList] : List Str) ≠
        ["input.go".toList, "enum.go".toList] :=
  ⟨List.Perm.refl _, List.Perm.swap _ _ _, by decide⟩

/-- C9 as amended: the templates are processed sequentially, one at a time,
in some iteration order over the two map keys; the order is unspecified, but
in a fully successful run it is unobservable in the result: any two valid
orders produce exit status zero and the same set of written files (the same
filename-to-content pairs, merely in a different processing order). -/
theorem run_order_independent_outputs (env : GenEnv) (tok : Str)
    (schema : List SchemaType) (o1 o2 : List Str)
    (htok : env.token = some tok) (hload : loadSchema env = .ok schema)
    (h1 : validOrder o1) (h2 : validOrder o2)
    (hrender : ∀ f ∈ templateFilenames, ∃ buf, env.render f schema = .ok buf)
    (hwrite : ∀ f ∈ templateFilenames, ∀ buf, env.render f schema = .ok buf →
      env.writeOk f (templateOutput env buf) = true) :
    (runGen env o1).1 = 0 ∧ (runGen env o2).1 = 0 ∧
      List.Perm (runGen env o1).2 (runGen env o2).2 := by
  have hr1 : ∀ f ∈ o1, ∃ buf, env.render f schema = .ok buf :=
    fun f hf => hrender f (h1.mem_iff.mp hf)
  have hw1 : ∀ f ∈ o1, ∀ buf, env.render f schema = .ok buf →
      env.writeOk f (templateOutput env buf) = true :=
    fun f hf => hwrite f (h1.mem_iff.mp hf)
  have hr2 : ∀ f ∈ o2, ∃ buf, env.render f schema = .ok buf :=
    fun f hf => hrender f (h2.mem_iff.mp hf)
  have hw2 : ∀ f ∈ o2, ∀ buf, env.render f schema = .ok buf →
      env.writeOk f (templateOutput env buf) = true :=
    fun f hf => hwrite f (h2.mem_iff.mp hf)
  rw [runGen_ok env tok schema o1 htok hload,
    runGen_ok env tok schema o2 htok hload,
    processTemplates_allOk env schema o1 hr1 hw1,
    processTemplates_allOk env schema o2 hr2 hw2]
  exact ⟨rfl, rfl, List.Perm.map _ (h1.trans h2.symm)⟩

/-- A concrete environment where every stage succeeds. -/
def allOkEnv : GenEnv where
  token := some "t".toList
  transport := .ok "schemajson".toList
  decode := fun _ => .ok []
  render := fun f _ => .ok f
  gofmt := fun b => .ok b
  writeOk := fun _ _ => true

/-- Witness for the amended C9: the two possible iteration orders of the
concrete all-success environment produce the same outcome. -/
theorem run_order_independent_outputs_witness :
    (runGen allOkEnv ["enum.go".toList, "input.go".toList]).1 = 0 ∧
      (runGen allOkEnv ["input.go".toList, "enum.go".toList]).1 = 0 ∧
      List.Perm (runGen allOkEnv ["enum.go".toList, "input.go".toList]).2
        (runGen allOkEnv ["input.go".toList, "enum.go".toList]).2 :=
  run_order_independent_outputs allOkEnv "t".toList [] _ _ rfl rfl
    (List.Perm.refl _) (List.Perm.swap _ _ _)
    (fun f _ => ⟨f, rfl⟩) (fun _ _ _ _ => rfl)

end GithubqlGen
